import Mathlib

/-!
Verification development for the koncur conformance-test harness
(pkg/targets and pkg/validator).

The Go sources are shallowly embedded as total Lean functions.  Go slices
become `List`, Go maps become association lists compared extensionally
(matching `maps.Equal` / `reflect.DeepEqual` on maps), Go `*T` optional
fields of the external konveyor data model become `Option T` compared by
value, and Go panics (nil-interface method calls, `uri.URI.Filename` on a
non-`file:` URI) are modelled by `Option`-valued results where `none`
marks the panic.
-/

namespace Koncur

/-! ## String primitives (models of Go `strings` / `path/filepath` helpers)

These model the Go standard-library functions the embedded code calls.
They operate on `String.data` (`List Char`) so that every definition is a
plain structural recursion; harness inputs are ASCII, so Go's byte
indexing coincides with character indexing.
-/

/-- Model of Go `unicode.IsSpace` restricted to the ASCII whitespace that
occurs in harness inputs. -/
def isSpaceChar (c : Char) : Bool :=
  c = ' ' || c = '\t' || c = '\n' || c = '\r'

/-- Model of Go `strings.TrimSpace`: drop leading and trailing whitespace. -/
def trimSpace (s : String) : String :=
  ⟨((s.data.dropWhile isSpaceChar).reverse.dropWhile isSpaceChar).reverse⟩

/-- `containsChar s c` models Go `strings.Contains(s, c)` for a one-character
separator. -/
def containsChar (s : String) (c : Char) : Bool :=
  s.data.any (fun x => x = c)

/-- Model of Go `strings.Contains` on character lists: `sub` occurs in `s`. -/
def containsChars (sub : List Char) : List Char → Bool
  | [] => sub.isEmpty
  | c :: rest => sub.isPrefixOf (c :: rest) || containsChars sub rest

/-- Model of Go `strings.Contains(s, sub)`. -/
def containsSubstr (s sub : String) : Bool :=
  containsChars sub.data s.data

/-- Model of Go `strings.HasPrefix(s, p)`. -/
def hasPrefixStr (s p : String) : Bool :=
  p.data.isPrefixOf s.data

/-- Model of Go `s[n:]` (ASCII inputs, bytes = characters). -/
def dropStr (s : String) (n : Nat) : String :=
  ⟨s.data.drop n⟩

/-- Model of Go `strings.SplitN(s, sep, 2)` for a one-character separator:
the part before the first occurrence of `c`, and — when `c` occurs — the
remainder after it. -/
def splitN2Char (c : Char) : List Char → List Char × Option (List Char)
  | [] => ([], none)
  | x :: xs =>
    if x = c then ([], some xs)
    else
      let r := splitN2Char c xs
      (x :: r.1, r.2)

/-- Model of Go `strings.Split(s, sep)` for a one-character separator:
leftmost occurrences, on character lists. -/
def splitOnChar (c : Char) : List Char → List (List Char)
  | [] => [[]]
  | x :: xs =>
    match splitOnChar c xs with
    | [] => [[]]
    | h :: t => if x = c then [] :: h :: t else (x :: h) :: t

/-- Model of Go `strings.Split(s, sep)` for a two-character separator
(leftmost, non-overlapping occurrences), on character lists. -/
def splitOnPair (a b : Char) : List Char → List (List Char)
  | [] => [[]]
  | [x] => [[x]]
  | x :: y :: rest =>
    if x = a ∧ y = b then
      match splitOnPair a b rest with
      | [] => [[]]
      | h :: t => [] :: h :: t
    else
      match splitOnPair a b (y :: rest) with
      | [] => [[]]
      | h :: t => (x :: h) :: t

/-- Model of Go `strings.Join(elems, sep)`. -/
def joinWith (sep : String) : List String → String
  | [] => ""
  | [x] => x
  | x :: y :: xs => x ++ sep ++ joinWith sep (y :: xs)

/-- Model of Go `strings.ToLower` (ASCII; harness paths are ASCII). -/
def toLowerStr (s : String) : String :=
  ⟨s.data.map Char.toLower⟩

/-! ## `path/filepath` models (Unix rules, as the harness runs on Linux) -/

/-- Worker for `filepath.Ext`: scan the reversed character list; stop at a
path separator, return from the final dot. -/
def extFromRev : List Char → List Char → String
  | [], _ => ""
  | c :: rest, acc =>
    if c = '/' then ""
    else if c = '.' then ⟨'.' :: acc⟩
    else extFromRev rest (c :: acc)

/-- Model of Go `filepath.Ext`: the suffix beginning at the final dot in the
final slash-separated element, `""` when there is no dot. -/
def filepathExt (path : String) : String :=
  extFromRev path.data.reverse []

/-- Segments of a path split at `/` (Go's separator-delimited words). -/
def splitSlash (s : String) : List String :=
  (splitOnChar '/' s.data).map (fun l => ⟨l⟩)

/-- Worker for `filepath.Clean`: process the slash-separated segments with
the standard stack algorithm (`.` and empty segments are dropped, `..` pops
a segment, or is kept when the path is relative and nothing can be popped,
or is dropped at the root of a rooted path). `out` is the reversed stack. -/
def cleanSegs (rooted : Bool) : List String → List String → List String
  | out, [] => out.reverse
  | out, seg :: rest =>
    if seg = "" || seg = "." then cleanSegs rooted out rest
    else if seg = ".." then
      match out with
      | top :: out' =>
        if top = ".." then cleanSegs rooted (".." :: top :: out') rest
        else cleanSegs rooted out' rest
      | [] => if rooted then cleanSegs rooted [] rest else cleanSegs rooted [".."] rest
    else cleanSegs rooted (seg :: out) rest

/-- Model of Go `filepath.Clean` on Unix. -/
def pathClean (path : String) : String :=
  if path = "" then "."
  else
    let rooted := hasPrefixStr path "/"
    let segs := cleanSegs rooted [] (splitSlash path)
    if segs.isEmpty then (if rooted then "/" else ".")
    else (if rooted then "/" else "") ++ joinWith "/" segs

/-- Model of Go `filepath.Join(a, b)`: join the non-empty elements with `/`
and clean; all-empty input yields `""`. -/
def pathJoin2 (a b : String) : String :=
  if a = "" && b = "" then ""
  else if a = "" then pathClean b
  else if b = "" then pathClean a
  else pathClean (a ++ "/" ++ b)

/-- Strip the longest common leading run of equal segments. -/
def stripCommonSegs : List String → List String → List String × List String
  | a :: as_, b :: bs =>
    if a = b then stripCommonSegs as_ bs else (a :: as_, b :: bs)
  | as_, bs => (as_, bs)

/-- Model of Go `filepath.Rel(basepath, targpath)` on Unix (volume names are
empty there): clean both paths, require agreeing rootedness, strip the
common leading segments, and climb with `..` for each remaining base
segment.  `none` models the `error` return.  Go compares separator-delimited
words of the cleaned strings; a cleaned base `"."` contributes no words and
a cleaned `"/"` exactly one empty word, which the segment lists below
reproduce. -/
def pathRel (basepath targpath : String) : Option String :=
  let base := pathClean basepath
  let targ := pathClean targpath
  if targ = base then some "."
  else
    let base' := if base = "." then "" else base
    let baseSlashed := hasPrefixStr base' "/"
    let targSlashed := hasPrefixStr targ "/"
    if baseSlashed != targSlashed then none
    else
      let bsegs := if base' = "" then [] else if base' = "/" then [""] else splitSlash base'
      let tsegs := if targ = "/" then [""] else splitSlash targ
      let rests := stripCommonSegs bsegs tsegs
      if rests.1.headD "" = ".." then none
      else if rests.1.isEmpty then some (joinWith "/" rests.2)
      else some (joinWith "/" (List.replicate rests.1.length ".." ++ rests.2))

/-- Model of `go.lsp.dev/uri`'s `URI.Filename()`: for a `file://` URI return
the filesystem path; any other scheme panics in Go, modelled as `none`.
(Percent decoding and Windows drive handling do not arise for harness
inputs.) -/
def uriFilename (u : String) : Option String :=
  if hasPrefixStr u "file://" then some (dropStr u 7) else none

end Koncur

namespace Koncur.Targets

open Koncur

/-! ## `pkg/targets` -/

/-- `Labels` from `pkg/targets` (spec §3): the parsed selector result. -/
structure Labels where
  included : List String
  excluded : List String
deriving DecidableEq

/-- Model of Go `strings.TrimPrefix(part, "!")`: drop one leading `!`. -/
def trimLeadingBang (s : String) : String :=
  if hasPrefixStr s "!" then dropStr s 1 else s

/-- One iteration of the `ParseLabelSelector` loop body
(`label_selector.go` lines 30–48). -/
def parseSelectorStep (labels : Labels) (part0 : String) : Labels :=
  let part := trimSpace part0
  if part = "" then labels
  else if hasPrefixStr part "!" then
    let excluded := trimSpace (trimLeadingBang part)
    if excluded ≠ "" then { labels with excluded := labels.excluded ++ [excluded] }
    else labels
  else { labels with included := labels.included ++ [part] }

/-- The `for _, part := range parts` loop of `ParseLabelSelector`. -/
def parseSelectorLoop (labels : Labels) : List String → Labels
  | [] => labels
  | part :: rest => parseSelectorLoop (parseSelectorStep labels part) rest

/-- `ParseLabelSelector` (`pkg/targets/label_selector.go`). -/
def ParseLabelSelector (selector : String) : Labels :=
  if selector = "" then { included := [], excluded := [] }
  else
    parseSelectorLoop { included := [], excluded := [] }
      ((splitOnPair '|' '|' selector.data).map (fun l => ⟨l⟩))

/-- `IsBinaryFile` (`pkg/targets/util.go`). -/
def IsBinaryFile (path : String) : Bool :=
  let ext := toLowerStr (filepathExt path)
  ext = ".jar" || ext = ".war" || ext = ".ear"

/-- The git-reference parsing of `KantraTarget.prepareInput`
(`pkg/targets/kantra.go` lines 200–216): split on the first `#` into URL
and remainder, split the remainder on the first `/` into ref and subpath. -/
def parseGitReference (application : String) : String × String × String :=
  if containsChar application '#' then
    let parts := splitN2Char '#' application.data
    match parts.2 with
    | some rest =>
      let refParts := splitN2Char '/' rest
      match refParts.2 with
      | some sub => (⟨parts.1⟩, ⟨refParts.1⟩, ⟨sub⟩)
      | none => (⟨parts.1⟩, ⟨refParts.1⟩, "")
    | none => (⟨parts.1⟩, "", "")
  else (application, "", "")

/-- The classification decision of `KantraTarget.prepareInput`
(`pkg/targets/kantra.go` lines 171–216), with the I/O that follows the
decision (stat, clone) abstracted away: which of the four input kinds the
application reference is materialized as, in the code's priority order. -/
inductive PreparedInput where
  | binaryArtifact (path : String)
  | legacyBinary (file : String)
  | localPath (path : String)
  | gitClone (url ref subpath : String)
deriving DecidableEq

/-- The pure decision structure of `KantraTarget.prepareInput`: binary file
extension first, then the git-URL check by literal prefixes `http://`,
`https://`, `git@`, then the legacy `binary:` form, else a local path. -/
def prepareInputDecision (application : String) : PreparedInput :=
  if IsBinaryFile application then .binaryArtifact application
  else
    let isGitURL := hasPrefixStr application "http://" ||
      hasPrefixStr application "https://" ||
      hasPrefixStr application "git@"
    if isGitURL = false then
      if hasPrefixStr application "binary:" then .legacyBinary (dropStr application 7)
      else .localPath application
    else
      let parsed := parseGitReference application
      .gitClone parsed.1 parsed.2.1 parsed.2.2

/-- `config.AnalysisConfig`, the analysis configuration consumed by
`KantraTarget.buildArgs`.  The `config` package is outside the embedded
core; the field set is the one `buildArgs` and the repository's tests use
(spec §6): analysis mode, context lines, label/incident selectors, target,
source and rules lists. -/
structure AnalysisConfig where
  analysisMode : String
  contextLines : Int
  labelSelector : String
  incidentSelector : String
  target : List String
  source : List String
  rules : List String
deriving DecidableEq

/-- `provider.SourceOnlyAnalysisMode` of analyzer-lsp (spec §6: mode
`source-only`). -/
def sourceOnlyAnalysisMode : String := "source-only"

/-- `provider.FullAnalysisMode` of analyzer-lsp (spec §6: mode `full`). -/
def fullAnalysisMode : String := "full"

/-- `KantraTarget.buildArgs` (`pkg/targets/kantra.go` lines 112–167).
A total function of its four inputs — the Go method reads no other state,
which is the determinism/purity the spec asserts. `strconv.Itoa` is
`Int.repr`. -/
def buildArgs (analysis : AnalysisConfig) (inputPath outputDir mavenSettings : String) :
    List String :=
  let args₀ := ["analyze", "--context-lines", Int.repr analysis.contextLines]
  let args₁ := args₀ ++ ["--input", inputPath]
  let args₂ := args₁ ++ ["--output", outputDir]
  let args₃ := args₂ ++
    (if analysis.labelSelector ≠ "" then ["--label-selector", analysis.labelSelector] else [])
  let args₄ := args₃ ++
    (if analysis.incidentSelector ≠ "" then ["--incident-selector", analysis.incidentSelector] else [])
  let args₅ := args₄ ++
    (if mavenSettings ≠ "" then ["--maven-settings", mavenSettings] else [])
  let args₆ := args₅ ++
    (if analysis.target.length > 0 then (analysis.target.map (fun t => ["-t", t])).flatten else [])
  let args₇ := args₆ ++
    (if analysis.source.length > 0 then (analysis.source.map (fun s => ["-s", s])).flatten else [])
  let args₈ := args₇ ++
    (if analysis.rules.length > 0 then (analysis.rules.map (fun r => ["--rules", r])).flatten else [])
  let args₉ := args₈ ++
    (if analysis.analysisMode = sourceOnlyAnalysisMode then ["--mode", "source-only"]
     else if analysis.analysisMode = fullAnalysisMode then ["--mode", "full"]
     else [])
  let args₁₀ := args₉ ++ ["--run-local=false"]
  args₁₀ ++ ["--overwrite"]

end Koncur.Targets

namespace Koncur.Validator

open Koncur

/-! ## The konveyor output data model

`konveyor.RuleSet` / `Violation` / `Incident` / `Link` come from the
external analyzer-lsp module (spec §1: "a fixed external data model",
spec §3).  Optional Go pointer fields (`Category *Category`,
`Effort *int`, `LineNumber *int`) are modelled as `Option` values compared
by value, as the spec's "category equality, effort equality, matching line
number" and the repository's own tests (which build fresh pointers to equal
values and expect equality) prescribe; Go maps are association lists
compared extensionally.
-/

/-- `konveyor.Link`: hyperlink attached to a violation (title + URL). -/
structure Link where
  title : String
  url : String
deriving DecidableEq

/-- `konveyor.Incident`: one concrete occurrence of a finding (spec §3). -/
structure Incident where
  uri : String
  message : String
  codeSnip : String
  lineNumber : Option Int
  vars : List (String × String)
deriving DecidableEq

/-- `konveyor.Violation`: a finding for one rule (spec §3). -/
structure Violation where
  description : String
  category : Option String
  labels : List String
  incidents : List Incident
  links : List Link
  effort : Option Int
deriving DecidableEq

/-- `konveyor.RuleSet`: a named bundle of analysis findings (spec §3). -/
structure RuleSet where
  name : String
  tags : List String
  violations : List (String × Violation)
  insights : List (String × Violation)
  errors : List (String × String)
  unmatched : List String
  skipped : List String
deriving DecidableEq

/-- The zero `konveyor.Violation`, produced by a Go map read on a missing
key (`rs.Violations[k]`). -/
def zeroViolation : Violation :=
  { description := "", category := none, labels := [], incidents := [], links := [],
    effort := none }

/-- Go map lookup returning `Option`. -/
def lookupAssoc {α : Type} (m : List (String × α)) (k : String) : Option α :=
  (m.find? (fun p => p.1 == k)).map (fun p => p.2)

/-- Go map read `m[k]`, yielding the zero value `d` on a missing key. -/
def lookupD {α : Type} (m : List (String × α)) (k : String) (d : α) : α :=
  (lookupAssoc m k).getD d

/-- Extensional map equality: the comparison `maps.Equal` performs on Go
string maps and `reflect.DeepEqual` on Go maps with value-comparable
entries. -/
def mapsEqual {α : Type} [DecidableEq α] (a b : List (String × α)) : Bool :=
  a.all (fun p => decide (lookupAssoc b p.1 = some p.2)) &&
    b.all (fun p => decide (lookupAssoc a p.1 = some p.2))

/-! ## Validation result types (`pkg/validator/validator.go`) -/

/-- The values stored in `ValidationError.Expected` / `.Actual`
(Go `any`): unset (`nil`), a string, or a `konveyor.Violation`. -/
inductive AnyVal where
  | nil
  | str (s : String)
  | vio (v : Violation)
deriving DecidableEq

/-- `ValidationError`: a single validation failure. -/
structure ValidationError where
  path : String
  message : String
  expected : AnyVal
  actual : AnyVal
deriving DecidableEq

/-- `ValidationResult`: pass/fail verdict plus itemized errors. -/
structure ValidationResult where
  passed : Bool
  errors : List ValidationError
deriving DecidableEq

/-- `findExpectedString` (`validator.go` lines 29–36). -/
def findExpectedString (expected : String) (actual : List String) : Bool :=
  actual.any (fun a => expected == a)

/-! ## The kantra comparer (`pkg/validator/kantra_validator.go`)

Rendering of values interpolated into error messages by `fmt.Sprintf`
(`%v`) is abstracted by the deterministic `fmt…` helpers below; no claim
depends on the exact interpolated text.
-/

/-- The `kantra` comparer struct: carries the test directory. -/
structure Kantra where
  testDir : String
deriving DecidableEq

/-- The `tackle2Hub` comparer struct: embeds `kantra`. -/
structure Tackle2Hub where
  kantra : Kantra
deriving DecidableEq

/-- Rendering of an optional string field for an error message. -/
def fmtOptStr : Option String → String
  | none => "<nil>"
  | some s => s

/-- Rendering of an optional integer field for an error message. -/
def fmtOptInt : Option Int → String
  | none => "<nil>"
  | some i => Int.repr i

/-- Rendering of a `Link` (`fmt` `%v` of a struct of two strings). -/
def fmtLink (l : Link) : String :=
  "\x7b" ++ l.title ++ " " ++ l.url ++ "\x7d"

/-- Rendering of an `Incident` for an error message. -/
def fmtIncident (i : Incident) : String :=
  "\x7b" ++ i.uri ++ " " ++ i.message ++ " " ++ i.codeSnip ++ " " ++
    fmtOptInt i.lineNumber ++ " map[" ++
    joinWith " " (i.vars.map (fun p => p.1 ++ ":" ++ p.2)) ++ "]\x7d"

/-- `kantra.compareTag` (`kantra_validator.go` lines 16–27).  The Go pair
`(*ValidationError, bool)` — with the bool true exactly when the pointer is
non-nil — is modelled as `Option ValidationError`. -/
def Kantra.compareTag (_k : Kantra) (expected : String) (actual : List String) :
    Option ValidationError :=
  if findExpectedString expected actual then none
  else
    some { path := "", message := "Did not find expected tag: " ++ expected,
           expected := .str expected, actual := .nil }

/-- `kantra.compareErrors` (`kantra_validator.go` lines 141–151). -/
def Kantra.compareErrors (_k : Kantra) (expected actual : String) :
    Option ValidationError :=
  if expected ≠ actual then
    some { path := "", message := "Did not find expected error: " ++ expected,
           expected := .str expected, actual := .nil }
  else none

/-- `kantra.compareUnmatched` (`kantra_validator.go` lines 153–164). -/
def Kantra.compareUnmatched (_k : Kantra) (expected : String) (actual : List String) :
    Option ValidationError :=
  if findExpectedString expected actual then none
  else
    some { path := "", message := "Did not find expected unmatched rule: " ++ expected,
           expected := .str expected, actual := .nil }

/-- `kantra.compareSkipped` (`kantra_validator.go` lines 166–177). -/
def Kantra.compareSkipped (_k : Kantra) (expected : String) (actual : List String) :
    Option ValidationError :=
  if findExpectedString expected actual then none
  else
    some { path := "", message := "Did not find expected skipped rule: " ++ expected,
           expected := .str expected, actual := .nil }

/-- The category / effort / links / labels checks that open both
`kantra.compareViolation` (`kantra_validator.go` lines 31–76) and
`tackle2Hub.compareViolation` (`tackle2_hub_validator.go` lines 18–63);
the two methods duplicate this code verbatim.  Note the link check: the
source compares `l.URL == al.Title` — the expected URL against the actual
TITLE — exactly as written on `kantra_validator.go` line 51 and
`tackle2_hub_validator.go` line 38. -/
def violationBaseErrors (expected actual : Violation) : List ValidationError :=
  (if expected.category = actual.category then []
   else [{ path := "", message := "Did not find expected category: " ++ fmtOptStr expected.category,
           expected := .vio expected, actual := .nil }])
  ++ (if expected.effort = actual.effort then []
      else [{ path := "", message := "Did not find expected effort: " ++ fmtOptInt expected.effort,
              expected := .vio expected, actual := .nil }])
  ++ expected.links.foldr (fun l acc =>
      if actual.links.any (fun al => l.title == al.title && l.url == al.title) then acc
      else { path := "", message := "Did not find expected links: " ++ fmtLink l,
             expected := .vio expected, actual := .nil } :: acc) []
  ++ expected.labels.foldr (fun lab acc =>
      if findExpectedString lab actual.labels then acc
      else { path := "", message := "Did not find expected label: " ++ lab,
             expected := .vio expected, actual := .nil } :: acc) []

/-- The message / line-number / variables tail of the incident matching
loops (identical in both comparers): the three `continue`-guarded equality
checks that must all pass for `found = true`. -/
def incidentFieldsMatch (i ai : Incident) : Bool :=
  i.message == ai.message && i.lineNumber == ai.lineNumber &&
    mapsEqual i.vars ai.vars

/-- The inner `for _, ai := range actual.Incidents` loop of
`kantra.compareViolation` (`kantra_validator.go` lines 79–109) for one
expected incident `i`, carrying the `found` flag.  `none` models the panic
of `URI.Filename()` on a non-`file:` URI; the `break` on a `filepath.Rel`
error returns the flag accumulated so far, as the Go loop does. -/
def kantraIncidentSearch (k : Kantra) (i : Incident) :
    List Incident → Bool → Option Bool
  | [], found => some found
  | ai :: rest, found =>
    if trimSpace i.codeSnip ≠ trimSpace ai.codeSnip then
      kantraIncidentSearch k i rest found
    else if i.uri = "" ∨ ai.uri = "" then
      if i.uri ≠ ai.uri then kantraIncidentSearch k i rest found
      else kantraIncidentSearch k i rest (found || incidentFieldsMatch i ai)
    else
      match uriFilename i.uri with
      | none => none
      | some ifn =>
        match pathRel (pathJoin2 k.testDir "source") ifn with
        | none => some found
        | some pathToTest =>
          match uriFilename ai.uri with
          | none => none
          | some afn =>
            if containsSubstr afn pathToTest then
              kantraIncidentSearch k i rest (found || incidentFieldsMatch i ai)
            else kantraIncidentSearch k i rest found

/-- The outer incident loop of `kantra.compareViolation`
(`kantra_validator.go` lines 78–113): collect the expected incidents that
were not found. -/
def kantraMissingLoop (k : Kantra) (actualIncs : List Incident) :
    List Incident → Option (List Incident)
  | [] => some []
  | i :: rest =>
    match kantraIncidentSearch k i actualIncs false with
    | none => none
    | some found =>
      match kantraMissingLoop k actualIncs rest with
      | none => none
      | some missing => some (if found then missing else i :: missing)

/-- `kantra.compareViolation` (`kantra_validator.go` lines 29–139): the
category/effort/links/labels checks, then incident existence matching with
a single consolidated missing-incidents error.  The Go pair
`([]ValidationError, bool)` — whose bool is `len(...) != 0` — is modelled
as the list alone (`none` models a panic inside the incident loop). -/
def Kantra.compareViolation (k : Kantra) (expected actual : Violation) :
    Option (List ValidationError) :=
  match kantraMissingLoop k actual.incidents expected.incidents with
  | none => none
  | some missing =>
    some (violationBaseErrors expected actual ++
      (if missing.isEmpty then []
       else
         let uris := (missing.filter (fun inc => inc.uri ≠ "")).map (fun inc => inc.uri)
         [{ path := "",
            message := "Missing " ++ Nat.repr missing.length ++ " incident(s)" ++
              (if uris.isEmpty then "" else " for files: " ++ joinWith ", " uris),
            expected := .str (Nat.repr expected.incidents.length ++ " incidents"),
            actual := .str (Nat.repr actual.incidents.length ++ " incidents (missing " ++
              Nat.repr missing.length ++ ")") }]))

/-- The inner `for _, ai := range actual.Incidents` loop of
`tackle2Hub.compareViolation` (`tackle2_hub_validator.go` lines 67–90) for
one expected incident `i`: no code-snippet check and no empty-URI special
case; `i.URI.Filename()` is evaluated on every iteration (so a non-`file:`
expected URI panics as soon as the actual list is non-empty), and the
`break` on a `filepath.Rel` error returns the accumulated flag. -/
def hubIncidentSearch (t : Tackle2Hub) (i : Incident) :
    List Incident → Bool → Option Bool
  | [], found => some found
  | ai :: rest, found =>
    match uriFilename i.uri with
    | none => none
    | some ifn =>
      match pathRel (pathJoin2 t.kantra.testDir "source") ifn with
      | none => some found
      | some pathToTest =>
        match uriFilename ai.uri with
        | none => none
        | some afn =>
          if containsSubstr afn pathToTest then
            hubIncidentSearch t i rest (found || incidentFieldsMatch i ai)
          else hubIncidentSearch t i rest found

/-- The outer incident loop of `tackle2Hub.compareViolation`
(`tackle2_hub_validator.go` lines 65–99): one error per missing expected
incident. -/
def hubIncidentsLoop (t : Tackle2Hub) (expectedV : Violation) (actualIncs : List Incident) :
    List Incident → Option (List ValidationError)
  | [] => some []
  | i :: rest =>
    match hubIncidentSearch t i actualIncs false with
    | none => none
    | some found =>
      match hubIncidentsLoop t expectedV actualIncs rest with
      | none => none
      | some acc =>
        some (if found then acc
              else { path := "", message := "Did not find expected incident: " ++ fmtIncident i,
                     expected := .vio expectedV, actual := .nil } :: acc)

/-- `tackle2Hub.compareViolation` (`tackle2_hub_validator.go` lines 16–102):
same category/effort/links/labels checks, incident matching without the
code-snippet requirement. -/
def Tackle2Hub.compareViolation (t : Tackle2Hub) (expected actual : Violation) :
    Option (List ValidationError) :=
  match hubIncidentsLoop t expected actual.incidents expected.incidents with
  | none => none
  | some incErrs => some (violationBaseErrors expected actual ++ incErrs)

/-! ## The comparer interface and `ValidateFiles` (`pkg/validator/validator.go`) -/

/-- The `comparer` interface: its two concrete implementations.
`tackle2Hub` embeds `kantra` and overrides only `compareViolation`. -/
inductive Comparer where
  | kantraC (k : Kantra)
  | tackle2HubC (t : Tackle2Hub)
deriving DecidableEq

/-- Dynamic dispatch of `compareTag`. -/
def Comparer.compareTag : Comparer → String → List String → Option ValidationError
  | .kantraC k, e, a => Kantra.compareTag k e a
  | .tackle2HubC t, e, a => Kantra.compareTag t.kantra e a

/-- Dynamic dispatch of `compareErrors`. -/
def Comparer.compareErrors : Comparer → String → String → Option ValidationError
  | .kantraC k, e, a => Kantra.compareErrors k e a
  | .tackle2HubC t, e, a => Kantra.compareErrors t.kantra e a

/-- Dynamic dispatch of `compareUnmatched`. -/
def Comparer.compareUnmatched : Comparer → String → List String → Option ValidationError
  | .kantraC k, e, a => Kantra.compareUnmatched k e a
  | .tackle2HubC t, e, a => Kantra.compareUnmatched t.kantra e a

/-- Dynamic dispatch of `compareSkipped`. -/
def Comparer.compareSkipped : Comparer → String → List String → Option ValidationError
  | .kantraC k, e, a => Kantra.compareSkipped k e a
  | .tackle2HubC t, e, a => Kantra.compareSkipped t.kantra e a

/-- Dynamic dispatch of `compareViolation` (the one overridden method). -/
def Comparer.compareViolation : Comparer → Violation → Violation → Option (List ValidationError)
  | .kantraC k, e, a => Kantra.compareViolation k e a
  | .tackle2HubC t, e, a => Tackle2Hub.compareViolation t e a

/-- `getComparer` (`validator.go` lines 46–61): `none` models the `nil`
interface returned for an unknown target type. -/
def getComparer (targetType testDir : String) : Option Comparer :=
  let k : Kantra := { testDir := testDir }
  if targetType = "kantra" then some (.kantraC k)
  else if targetType = "tackle-hub" then some (.tackle2HubC { kantra := k })
  else if targetType = "tackle-ui" then some (.kantraC k)
  else if targetType = "kai-rpc" then some (.kantraC k)
  else if targetType = "vscode" then some (.kantraC k)
  else none

/-- The `for k, eerr := range ers.Errors` loop of `ValidateFiles`
(`validator.go` lines 100–104).  Each iteration calls a method on the
comparer interface value first, so a `nil` comparer (`c? = none`) panics
(`none`) as soon as the loop body runs once.  Go map iteration order is
unspecified; the association-list order is a determinization. -/
def compareErrorsLoop (c? : Option Comparer) (rsErrors : List (String × String)) :
    List (String × String) → Option (List ValidationError)
  | [] => some []
  | (key, eerr) :: rest =>
    match c? with
    | none => none
    | some c =>
      match compareErrorsLoop c? rsErrors rest with
      | none => none
      | some acc =>
        match c.compareErrors eerr (lookupD rsErrors key "") with
        | some err => some (err :: acc)
        | none => some acc

/-- The `for _, erstags := range ers.Tags` loop (`validator.go` 108–112). -/
def compareTagsLoop (c? : Option Comparer) (rsTags : List String) :
    List String → Option (List ValidationError)
  | [] => some []
  | etag :: rest =>
    match c? with
    | none => none
    | some c =>
      match compareTagsLoop c? rsTags rest with
      | none => none
      | some acc =>
        match c.compareTag etag rsTags with
        | some err => some (err :: acc)
        | none => some acc

/-- The `for k, ersinsights := range ers.Insights` / `ers.Violations` loops
(`validator.go` lines 115–129 and 133–147): on a non-empty comparison
result, wrap all its messages into one summary error whose message starts
with `header` (`"Did not find Insights\n\t"` or
`"Did not find violations\n\t"`). -/
def compareViolationsLoop (c? : Option Comparer) (header : String)
    (rsV : List (String × Violation)) :
    List (String × Violation) → Option (List ValidationError)
  | [] => some []
  | (key, ev) :: rest =>
    match c? with
    | none => none
    | some c =>
      match c.compareViolation ev (lookupD rsV key zeroViolation) with
      | none => none
      | some errs =>
        match compareViolationsLoop c? header rsV rest with
        | none => none
        | some acc =>
          if errs.isEmpty then some acc
          else
            some ({ path := "",
                    message := errs.foldl (fun m e => m ++ "\n\t" ++ e.message) header,
                    expected := .vio ev, actual := .nil } :: acc)

/-- The `for _, ersunmatched := range ers.Unmatched` loop
(`validator.go` 150–154). -/
def compareUnmatchedLoop (c? : Option Comparer) (rsUnmatched : List String) :
    List String → Option (List ValidationError)
  | [] => some []
  | eu :: rest =>
    match c? with
    | none => none
    | some c =>
      match compareUnmatchedLoop c? rsUnmatched rest with
      | none => none
      | some acc =>
        match c.compareUnmatched eu rsUnmatched with
        | some err => some (err :: acc)
        | none => some acc

/-- The `for _, ersskipped := range ers.Skipped` loop
(`validator.go` 157–161). -/
def compareSkippedLoop (c? : Option Comparer) (rsSkipped : List String) :
    List String → Option (List ValidationError)
  | [] => some []
  | es :: rest =>
    match c? with
    | none => none
    | some c =>
      match compareSkippedLoop c? rsSkipped rest with
      | none => none
      | some acc =>
        match c.compareSkipped es rsSkipped with
        | some err => some (err :: acc)
        | none => some acc

/-- The errors field block of `ValidateFiles` (`validator.go` 99–105):
short-circuit on raw `maps.Equal` before comparing. -/
def errorsStep (c? : Option Comparer) (ers rs : RuleSet) : Option (List ValidationError) :=
  if mapsEqual ers.errors rs.errors then some []
  else compareErrorsLoop c? rs.errors ers.errors

/-- The tags field block (`validator.go` 107–113): short-circuit on
`reflect.DeepEqual(rs.Tags, ers.Tags)`. -/
def tagsStep (c? : Option Comparer) (ers rs : RuleSet) : Option (List ValidationError) :=
  if rs.tags = ers.tags then some []
  else compareTagsLoop c? rs.tags ers.tags

/-- The insights field block (`validator.go` 114–131). -/
def insightsStep (c? : Option Comparer) (ers rs : RuleSet) : Option (List ValidationError) :=
  if mapsEqual rs.insights ers.insights then some []
  else compareViolationsLoop c? "Did not find Insights\n\t" rs.insights ers.insights

/-- The violations field block (`validator.go` 132–148). -/
def violationsStep (c? : Option Comparer) (ers rs : RuleSet) : Option (List ValidationError) :=
  if mapsEqual rs.violations ers.violations then some []
  else compareViolationsLoop c? "Did not find violations\n\t" rs.violations ers.violations

/-- The unmatched field block (`validator.go` 149–155). -/
def unmatchedStep (c? : Option Comparer) (ers rs : RuleSet) : Option (List ValidationError) :=
  if rs.unmatched = ers.unmatched then some []
  else compareUnmatchedLoop c? rs.unmatched ers.unmatched

/-- The skipped field block (`validator.go` 156–162). -/
def skippedStep (c? : Option Comparer) (ers rs : RuleSet) : Option (List ValidationError) :=
  if rs.skipped = ers.skipped then some []
  else compareSkippedLoop c? rs.skipped ers.skipped

/-- The six field comparisons run for one name-matched expected/actual
ruleset pair, in source order: errors, tags, insights, violations,
unmatched, skipped. -/
def compareRuleSets (c? : Option Comparer) (ers rs : RuleSet) :
    Option (List ValidationError) :=
  (errorsStep c? ers rs).bind fun e1 =>
  (tagsStep c? ers rs).bind fun e2 =>
  (insightsStep c? ers rs).bind fun e3 =>
  (violationsStep c? ers rs).bind fun e4 =>
  (unmatchedStep c? ers rs).bind fun e5 =>
  (skippedStep c? ers rs).map fun e6 =>
  e1 ++ (e2 ++ (e3 ++ (e4 ++ (e5 ++ e6))))

/-- The inner `for _, rs := range actual` loop of `ValidateFiles`
(`validator.go` 94–163): skip actual rulesets with a different name, run
the field comparisons on every name match. -/
def actualLoop (c? : Option Comparer) (ers : RuleSet) :
    List RuleSet → Option (List ValidationError)
  | [] => some []
  | rs :: rest =>
    if rs.name ≠ ers.name then actualLoop c? ers rest
    else
      match compareRuleSets c? ers rs with
      | none => none
      | some e =>
        match actualLoop c? ers rest with
        | none => none
        | some r => some (e ++ r)

/-- The placeholder `ValidationError{Path: "ruleset/<name>"}` appended for
every expected ruleset regardless of match outcome
(`validator.go` line 164). -/
def placeholderError (ers : RuleSet) : ValidationError :=
  { path := "ruleset/" ++ ers.name, message := "", expected := .nil, actual := .nil }

/-- The outer `for _, ers := range expected` loop of `ValidateFiles`
(`validator.go` 93–165). -/
def expectedLoop (c? : Option Comparer) (actual : List RuleSet) :
    List RuleSet → Option (List ValidationError)
  | [] => some []
  | ers :: rest =>
    match actualLoop c? ers actual with
    | none => none
    | some e =>
      match expectedLoop c? actual rest with
      | none => none
      | some r => some (e ++ ([placeholderError ers] ++ r))

/-- `ValidateFiles` (`validator.go` lines 84–172).  The Go function always
returns a `nil` error; `none` here models the panic on a `nil` comparer
dereference or inside incident matching. -/
def ValidateFiles (testDir targetType : String) (actual expected : List RuleSet) :
    Option ValidationResult :=
  match expectedLoop (getComparer targetType testDir) actual expected with
  | none => none
  | some errors => some { passed := errors.isEmpty, errors := errors }

/-- `Validate` (`validator.go` lines 79–81): delegates to `ValidateFiles`
with empty test directory and empty target type. -/
def Validate (actual expected : List RuleSet) : Option ValidationResult :=
  ValidateFiles "" "" actual expected

/-! ## Concrete fixtures used by individual theorems -/

/-- The violation of the repository's `TestValidate_ExactMatch` fixture. -/
def exactMatchViolation : Violation :=
  { description := "Test violation", category := some "mandatory", labels := ["label1"],
    incidents := [{ uri := "file:///test/file.go", message := "Test message", codeSnip := "",
                    lineNumber := some 10, vars := [] }],
    links := [], effort := some 5 }

/-- The ruleset of the repository's `TestValidate_ExactMatch` fixture. -/
def exactMatchRuleSet : RuleSet :=
  { name := "test-ruleset", tags := ["tag1", "tag2"],
    violations := [("rule1", exactMatchViolation)],
    insights := [], errors := [], unmatched := [], skipped := [] }

/-- A ruleset named `r` with all other fields zero. -/
def rulesetR : RuleSet :=
  { name := "r", tags := [], violations := [], insights := [], errors := [],
    unmatched := [], skipped := [] }

/-- A violation whose only content is one link, equal on both sides of the
link-comparison counterexample. -/
def oneLinkViolation : Violation :=
  { zeroViolation with links := [{ title := "t", url := "u" }] }

/-- Expected incident for the code-snippet tolerance check. -/
def snipIncidentA : Incident :=
  { uri := "file:///test/source/file.go", message := "m", codeSnip := "snipA",
    lineNumber := some 10, vars := [] }

/-- Expected violation for the code-snippet tolerance check. -/
def snipViolationExp : Violation :=
  { zeroViolation with
    category := some "mandatory"
    effort := some 1
    incidents := [snipIncidentA] }

/-- Actual violation: identical except the incident's `codeSnip`. -/
def snipViolationAct : Violation :=
  { snipViolationExp with incidents := [{ snipIncidentA with codeSnip := "snipB" }] }

/-- One comparer method is invoked for the pair `(ers, rs)`: some compared
field fails its raw equality short-circuit while the expected ruleset's
collection for that field is non-empty (so the corresponding loop body runs
at least once).  Field order: errors, tags, insights, violations,
unmatched, skipped. -/
def comparerInvoked (ers rs : RuleSet) : Bool :=
  (!mapsEqual ers.errors rs.errors && !ers.errors.isEmpty) ||
  (!(decide (rs.tags = ers.tags)) && !ers.tags.isEmpty) ||
  (!mapsEqual rs.insights ers.insights && !ers.insights.isEmpty) ||
  (!mapsEqual rs.violations ers.violations && !ers.violations.isEmpty) ||
  (!(decide (rs.unmatched = ers.unmatched)) && !ers.unmatched.isEmpty) ||
  (!(decide (rs.skipped = ers.skipped)) && !ers.skipped.isEmpty)

/-- Full-match predicate distilled from one iteration of the kantra
incident loop: the `found` flag is set for `(i, ai)` exactly when this
holds. -/
def kantraMatches (k : Kantra) (i ai : Incident) : Bool :=
  (trimSpace i.codeSnip == trimSpace ai.codeSnip) &&
  (if i.uri = "" ∨ ai.uri = "" then i.uri == ai.uri
   else
     match uriFilename i.uri with
     | none => false
     | some ifn =>
       match pathRel (pathJoin2 k.testDir "source") ifn with
       | none => false
       | some p =>
         match uriFilename ai.uri with
         | none => false
         | some afn => containsSubstr afn p) &&
  incidentFieldsMatch i ai

/-- Panic predicate for one iteration of the kantra incident loop:
a `URI.Filename()` call on a non-`file:` URI is reached. -/
def kantraPanics (k : Kantra) (i ai : Incident) : Bool :=
  (trimSpace i.codeSnip == trimSpace ai.codeSnip) &&
  !(decide (i.uri = "")) && !(decide (ai.uri = "")) &&
  (match uriFilename i.uri with
   | none => true
   | some ifn =>
     match pathRel (pathJoin2 k.testDir "source") ifn with
     | none => false
     | some _ => (uriFilename ai.uri).isNone)

/-- Full-match predicate for one iteration of the tackle2Hub incident
loop. -/
def hubMatches (t : Tackle2Hub) (i ai : Incident) : Bool :=
  (match uriFilename i.uri with
   | none => false
   | some ifn =>
     match pathRel (pathJoin2 t.kantra.testDir "source") ifn with
     | none => false
     | some p =>
       match uriFilename ai.uri with
       | none => false
       | some afn => containsSubstr afn p) &&
  incidentFieldsMatch i ai

/-- Panic predicate for one iteration of the tackle2Hub incident loop. -/
def hubPanics (t : Tackle2Hub) (i ai : Incident) : Bool :=
  match uriFilename i.uri with
  | none => true
  | some ifn =>
    match pathRel (pathJoin2 t.kantra.testDir "source") ifn with
    | none => false
    | some _ => (uriFilename ai.uri).isNone

end Koncur.Validator

/-!
# Theorems
-/

namespace Koncur.Validator

/-- On a nil comparer, the errors loop panics iff it has any iteration. -/
theorem compareErrorsLoop_none_iff (rsE : List (String × String)) (l : List (String × String)) :
    compareErrorsLoop none rsE l = none ↔ l ≠ [] := by
  cases l with
  | nil => simp [compareErrorsLoop]
  | cons x xs => cases x; simp [compareErrorsLoop]

/-- On a nil comparer, the tags loop panics iff it has any iteration. -/
theorem compareTagsLoop_none_iff (rsT : List String) (l : List String) :
    compareTagsLoop none rsT l = none ↔ l ≠ [] := by
  cases l with
  | nil => simp [compareTagsLoop]
  | cons x xs => simp [compareTagsLoop]

/-- On a nil comparer, the violations/insights loop panics iff it has any
iteration. -/
theorem compareViolationsLoop_none_iff (header : String) (rsV : List (String × Violation))
    (l : List (String × Violation)) :
    compareViolationsLoop none header rsV l = none ↔ l ≠ [] := by
  cases l with
  | nil => simp [compareViolationsLoop]
  | cons x xs => cases x; simp [compareViolationsLoop]

/-- On a nil comparer, the unmatched loop panics iff it has any iteration. -/
theorem compareUnmatchedLoop_none_iff (rsU : List String) (l : List String) :
    compareUnmatchedLoop none rsU l = none ↔ l ≠ [] := by
  cases l with
  | nil => simp [compareUnmatchedLoop]
  | cons x xs => simp [compareUnmatchedLoop]

/-- On a nil comparer, the skipped loop panics iff it has any iteration. -/
theorem compareSkippedLoop_none_iff (rsS : List String) (l : List String) :
    compareSkippedLoop none rsS l = none ↔ l ≠ [] := by
  cases l with
  | nil => simp [compareSkippedLoop]
  | cons x xs => simp [compareSkippedLoop]

/-- On a nil comparer, the errors step panics iff the maps differ and the
expected map is non-empty. -/
theorem errorsStep_none_iff (ers rs : RuleSet) :
    errorsStep none ers rs = none ↔
      (mapsEqual ers.errors rs.errors = false ∧ ers.errors ≠ []) := by
  unfold errorsStep
  split_ifs with h
  · simp [h]
  · simp only [compareErrorsLoop_none_iff]
    simp [Bool.not_eq_true _ ▸ h]

/-- On a nil comparer, the tags step panics iff the lists differ and the
expected list is non-empty. -/
theorem tagsStep_none_iff (ers rs : RuleSet) :
    tagsStep none ers rs = none ↔ (rs.tags ≠ ers.tags ∧ ers.tags ≠ []) := by
  unfold tagsStep
  split_ifs with h
  · simp [h]
  · simp [compareTagsLoop_none_iff, h]

/-- On a nil comparer, the insights step panics iff the maps differ and the
expected map is non-empty. -/
theorem insightsStep_none_iff (ers rs : RuleSet) :
    insightsStep none ers rs = none ↔
      (mapsEqual rs.insights ers.insights = false ∧ ers.insights ≠ []) := by
  unfold insightsStep
  split_ifs with h
  · simp [h]
  · simp only [compareViolationsLoop_none_iff]
    simp [Bool.not_eq_true _ ▸ h]

/-- On a nil comparer, the violations step panics iff the maps differ and
the expected map is non-empty. -/
theorem violationsStep_none_iff (ers rs : RuleSet) :
    violationsStep none ers rs = none ↔
      (mapsEqual rs.violations ers.violations = false ∧ ers.violations ≠ []) := by
  unfold violationsStep
  split_ifs with h
  · simp [h]
  · simp only [compareViolationsLoop_none_iff]
    simp [Bool.not_eq_true _ ▸ h]

/-- On a nil comparer, the unmatched step panics iff the lists differ and
the expected list is non-empty. -/
theorem unmatchedStep_none_iff (ers rs : RuleSet) :
    unmatchedStep none ers rs = none ↔ (rs.unmatched ≠ ers.unmatched ∧ ers.unmatched ≠ []) := by
  unfold unmatchedStep
  split_ifs with h
  · simp [h]
  · simp [compareUnmatchedLoop_none_iff, h]

/-- On a nil comparer, the skipped step panics iff the lists differ and
the expected list is non-empty. -/
theorem skippedStep_none_iff (ers rs : RuleSet) :
    skippedStep none ers rs = none ↔ (rs.skipped ≠ ers.skipped ∧ ers.skipped ≠ []) := by
  unfold skippedStep
  split_ifs with h
  · simp [h]
  · simp [compareSkippedLoop_none_iff, h]

/-- `comparerInvoked` holds exactly when one of the six field steps panics
on a nil comparer. -/
theorem comparerInvoked_iff_steps (ers rs : RuleSet) :
    comparerInvoked ers rs = true ↔
      (errorsStep none ers rs = none ∨ tagsStep none ers rs = none ∨
        insightsStep none ers rs = none ∨ violationsStep none ers rs = none ∨
        unmatchedStep none ers rs = none ∨ skippedStep none ers rs = none) := by
  rw [errorsStep_none_iff, tagsStep_none_iff, insightsStep_none_iff,
    violationsStep_none_iff, unmatchedStep_none_iff, skippedStep_none_iff]
  simp only [comparerInvoked, Bool.or_eq_true, Bool.and_eq_true, Bool.not_eq_true',
    List.isEmpty_eq_false, Bool.not_eq_true, decide_eq_false_iff_not, ne_eq]
  simp only [or_assoc]

/-- On a nil comparer, the per-pair comparison panics iff one of the six
steps panics. -/
theorem compareRuleSets_none_iff (ers rs : RuleSet) :
    compareRuleSets none ers rs = none ↔ comparerInvoked ers rs = true := by
  rw [comparerInvoked_iff_steps]
  cases h1 : errorsStep none ers rs <;>
    cases h2 : tagsStep none ers rs <;>
      cases h3 : insightsStep none ers rs <;>
        cases h4 : violationsStep none ers rs <;>
          cases h5 : unmatchedStep none ers rs <;>
            cases h6 : skippedStep none ers rs <;>
              simp [compareRuleSets, h1, h2, h3, h4, h5, h6]

/-- On a nil comparer, the inner actual-ruleset loop panics iff some
name-matched actual ruleset makes a comparer method run. -/
theorem actualLoop_none_iff (ers : RuleSet) (l : List RuleSet) :
    actualLoop none ers l = none ↔
      ∃ rs ∈ l, rs.name = ers.name ∧ comparerInvoked ers rs = true := by
  induction l with
  | nil => simp [actualLoop]
  | cons rs rest ih =>
    by_cases hname : rs.name = ers.name
    · cases hc : compareRuleSets none ers rs with
      | none =>
        simp only [actualLoop, hname, ne_eq, not_true_eq_false, if_false, hc]
        simp only [true_iff]
        exact ⟨rs, List.mem_cons_self rs rest, hname, (compareRuleSets_none_iff ers rs).mp hc⟩
      | some e =>
        have hinv : comparerInvoked ers rs = false := by
          rcases Bool.eq_false_or_eq_true (comparerInvoked ers rs) with h | h
          · rw [← compareRuleSets_none_iff] at h
            rw [h] at hc
            exact absurd hc (by simp)
          · exact h
        simp only [actualLoop, hname, ne_eq, not_true_eq_false, if_false, hc]
        cases hr : actualLoop none ers rest with
        | none =>
          simp only [true_iff]
          obtain ⟨rs', hmem, hn', hi'⟩ := ih.mp hr
          exact ⟨rs', List.mem_cons_of_mem rs hmem, hn', hi'⟩
        | some r =>
          simp only [List.mem_cons]
          constructor
          · intro habs
            exact absurd habs (by simp)
          · rintro ⟨rs', hmem | hmem, hn', hi'⟩
            · subst hmem
              rw [hinv] at hi'
              exact absurd hi' (by simp)
            · have hloop := ih.mpr ⟨rs', hmem, hn', hi'⟩
              rw [hloop] at hr
              exact absurd hr (by simp)
    · simp only [actualLoop, hname, ne_eq, not_false_eq_true, if_true, ih, List.mem_cons]
      constructor
      · rintro ⟨rs', hmem, hn', hi'⟩
        exact ⟨rs', Or.inr hmem, hn', hi'⟩
      · rintro ⟨rs', hmem | hmem, hn', hi'⟩
        · subst hmem
          exact absurd hn' hname
        · exact ⟨rs', hmem, hn', hi'⟩

/-- On a nil comparer, the outer expected-ruleset loop panics iff some
matched pair makes a comparer method run. -/
theorem expectedLoop_none_iff (actual : List RuleSet) (l : List RuleSet) :
    expectedLoop none actual l = none ↔
      ∃ ers ∈ l, ∃ rs ∈ actual, rs.name = ers.name ∧ comparerInvoked ers rs = true := by
  induction l with
  | nil => simp [expectedLoop]
  | cons ers rest ih =>
    cases ha : actualLoop none ers actual with
    | none =>
      simp only [expectedLoop, ha, true_iff]
      exact ⟨ers, List.mem_cons_self ers rest, (actualLoop_none_iff ers actual).mp ha⟩
    | some e =>
      have hnot : ¬ ∃ rs ∈ actual, rs.name = ers.name ∧ comparerInvoked ers rs = true := by
        intro hex
        rw [(actualLoop_none_iff ers actual).mpr hex] at ha
        exact absurd ha (by simp)
      simp only [expectedLoop, ha]
      cases hr : expectedLoop none actual rest with
      | none =>
        simp only [true_iff]
        obtain ⟨ers', hmem, hrest⟩ := ih.mp hr
        exact ⟨ers', List.mem_cons_of_mem ers hmem, hrest⟩
      | some r =>
        simp only [List.mem_cons]
        constructor
        · intro habs
          exact absurd habs (by simp)
        · rintro ⟨ers', hmem | hmem, hrest⟩
          · subst hmem
            exact (hnot hrest).elim
          · have hloop := ih.mpr ⟨ers', hmem, hrest⟩
            rw [hloop] at hr
            exact absurd hr (by simp)

/-- C2 (amended): for every target type outside the five known backend
names (including the empty string that the two-argument `Validate` passes),
`getComparer` returns nil; `ValidateFiles` then dereferences the nil
comparer (panics) exactly when some name-matched expected/actual pair makes
a comparer method run — a compared field whose raw equality check fails
while the expected ruleset's collection for that field is non-empty.  In
particular it returns normally whenever every matched pair is field-wise
equal, but also on unequal pairs whose differing fields are empty on the
expected side (see the counterexample). -/
theorem validateFiles_nil_comparer_crash_iff (targetType testDir : String)
    (actual expected : List RuleSet)
    (h : targetType ∉ ["kantra", "tackle-hub", "tackle-ui", "kai-rpc", "vscode"]) :
    getComparer targetType testDir = none ∧
    (ValidateFiles testDir targetType actual expected = none ↔
      ∃ ers ∈ expected, ∃ rs ∈ actual, rs.name = ers.name ∧ comparerInvoked ers rs = true) := by
  simp only [List.mem_cons, List.not_mem_nil, or_false, not_or] at h
  obtain ⟨h1, h2, h3, h4, h5⟩ := h
  have hg : getComparer targetType testDir = none := by
    simp only [getComparer]
    rw [if_neg h1, if_neg h2, if_neg h3, if_neg h4, if_neg h5]
  refine ⟨hg, ?_⟩
  have hv : ValidateFiles testDir targetType actual expected = none ↔
      expectedLoop none actual expected = none := by
    unfold ValidateFiles
    rw [hg]
    cases expectedLoop none actual expected <;> simp
  rw [hv, expectedLoop_none_iff]

/-- Witness for `validateFiles_nil_comparer_crash_iff` with target type
`""` (the two-argument `Validate`) on a pair differing in a non-empty
expected errors map. -/
theorem validateFiles_nil_comparer_crash_iff_witness :
    getComparer "" "" = none ∧
    (ValidateFiles "" "" [rulesetR] [{ rulesetR with errors := [("k", "v")] }] = none ↔
      ∃ ers ∈ [{ rulesetR with errors := [("k", "v")] }], ∃ rs ∈ [rulesetR],
        rs.name = ers.name ∧ comparerInvoked ers rs = true) :=
  validateFiles_nil_comparer_crash_iff "" "" [rulesetR]
    [{ rulesetR with errors := [("k", "v")] }] (by decide)

/-- C1: the claim "`Validate(X, X)` returns a `ValidationResult` with
`Passed = true` (zero errors) for every well-formed RuleSet list `X`" fails
on the code: the source appends a placeholder `ValidationError` with path
`ruleset/<name>` and empty message for every expected ruleset regardless of
match outcome (`validator.go` line 164), so validating the repository's own
`TestValidate_ExactMatch` fixture against itself yields `Passed = false`
with exactly that placeholder error — the behaviour that makes the
repository's own test fail.  (The theorem evaluates the embedded code at
the failing input.) -/
theorem validate_self_not_passed :
    Validate [exactMatchRuleSet] [exactMatchRuleSet] =
      some { passed := false,
             errors := [{ path := "ruleset/test-ruleset", message := "",
                          expected := .nil, actual := .nil }] } := by
  decide

/-- C3: the claim "no `Did not find expected links` error is emitted iff
some actual Link has the same Title" is falsified at an input where
expected and actual carry the *identical* link `{Title: "t", URL: "u"}`:
a matching title (indeed a fully identical link) is present, yet the
comparison emits the link error, because the source requires
`l.URL == al.Title` (`kantra_validator.go` line 51) in addition to the
title match. -/
theorem identical_link_flagged :
    (∃ al ∈ oneLinkViolation.links, al.title = "t") ∧
    Kantra.compareViolation { testDir := "" } oneLinkViolation oneLinkViolation =
      some [{ path := "", message := "Did not find expected links: {t u}",
              expected := .vio oneLinkViolation, actual := .nil }] := by
  exact ⟨⟨{ title := "t", url := "u" }, by decide, rfl⟩, by decide⟩

/-- C4: for two violations identical except that the single incident's
`codeSnip` differs (URI, message, line number and variables agreeing), the
tackle-hub comparer's violation comparison reports no error while the
kantra comparer reports the incident as missing. -/
theorem codeSnip_tolerance :
    Tackle2Hub.compareViolation { kantra := { testDir := "/test" } }
      snipViolationExp snipViolationAct = some [] ∧
    Kantra.compareViolation { testDir := "/test" }
      snipViolationExp snipViolationAct =
      some [{ path := "",
              message := "Missing 1 incident(s) for files: file:///test/source/file.go",
              expected := .str "1 incidents",
              actual := .str "1 incidents (missing 1)" }] := by
  exact ⟨by decide, by decide⟩

/-- C7: validating an empty actual ruleset list against an expected list
holding one ruleset named `r` yields `Passed = false` and a single error
whose path is `ruleset/r`. -/
theorem missing_ruleset_error (rs : RuleSet) (h : rs.name = "r") :
    Validate [] [rs] =
      some { passed := false,
             errors := [{ path := "ruleset/r", message := "",
                          expected := .nil, actual := .nil }] } := by
  simp only [Validate, ValidateFiles, expectedLoop, actualLoop, placeholderError, h]
  decide

/-- Witness for `missing_ruleset_error` at the ruleset `rulesetR`. -/
theorem missing_ruleset_error_witness :
    Validate [] [rulesetR] =
      some { passed := false,
             errors := [{ path := "ruleset/r", message := "",
                          expected := .nil, actual := .nil }] } :=
  missing_ruleset_error rulesetR (by decide)

/-- C2 (counterexample): the claim "`ValidateFiles` with an unknown target
type returns normally only when every matched expected/actual pair is
field-wise structurally equal" is false: with target type `"bogus"` and a
matched pair that differs in `Tags` but whose *expected* ruleset has an
empty tag list, the tags loop body never runs, no comparer method is
invoked, and the call returns normally. -/
theorem validateFiles_survives_unequal_pair :
    (ValidateFiles "" "bogus" [{ rulesetR with tags := ["t"] }] [rulesetR]).isSome = true ∧
    ({ rulesetR with tags := ["t"] } : RuleSet).name = rulesetR.name ∧
    ({ rulesetR with tags := ["t"] } : RuleSet) ≠ rulesetR := by
  exact ⟨by decide, by decide, by decide⟩

end Koncur.Validator

namespace Koncur.Targets

/-- C5 (counterexample): `ParseLabelSelector "a || !a"` places the string
`"a"` in both `Included` and `Excluded`, so the two collections are not
disjoint in general. -/
theorem parseLabelSelector_overlap :
    ParseLabelSelector "a || !a" = { included := ["a"], excluded := ["a"] } ∧
    "a" ∈ (ParseLabelSelector "a || !a").included ∧
    "a" ∈ (ParseLabelSelector "a || !a").excluded := by
  exact ⟨by decide, by decide, by decide⟩

/-- C6 (counterexample): the reference `deploy@example.com:repo.git` — an
ssh-style `<user>@<host>:` form whose user is not `git` — is classified as
a plain local path, not as a git reference to clone: the source only
recognizes the literal prefixes `http://`, `https://` and `git@`
(`kantra.go` lines 182–184). -/
theorem ssh_style_ref_is_local_path :
    prepareInputDecision "deploy@example.com:repo.git" =
      .localPath "deploy@example.com:repo.git" := by
  decide

/-- One step of the selector loop adds no empty string to either list. -/
theorem parseSelectorStep_no_empty (labels : Labels) (part0 : String)
    (h1 : "" ∉ labels.included) (h2 : "" ∉ labels.excluded) :
    "" ∉ (parseSelectorStep labels part0).included ∧
      "" ∉ (parseSelectorStep labels part0).excluded := by
  simp only [parseSelectorStep]
  split_ifs with hp hb hne
  · exact ⟨h1, h2⟩
  · refine ⟨h1, ?_⟩
    simp only [List.mem_append, List.mem_singleton]
    rintro (h | h)
    · exact h2 h
    · exact hne h.symm
  · exact ⟨h1, h2⟩
  · refine ⟨?_, h2⟩
    simp only [List.mem_append, List.mem_singleton]
    rintro (h | h)
    · exact h1 h
    · exact hp h.symm

/-- The selector loop preserves "no empty strings". -/
theorem parseSelectorLoop_no_empty (parts : List String) :
    ∀ labels : Labels, "" ∉ labels.included → "" ∉ labels.excluded →
      "" ∉ (parseSelectorLoop labels parts).included ∧
        "" ∉ (parseSelectorLoop labels parts).excluded := by
  induction parts with
  | nil => exact fun l h1 h2 => ⟨h1, h2⟩
  | cons p rest ih =>
    intro l h1 h2
    have hs := parseSelectorStep_no_empty l p h1 h2
    exact ih _ hs.1 hs.2

/-- C5 (amended): for every selector string, neither `Included` nor
`Excluded` contains an empty string, and the empty selector yields two
empty, non-null collections.  (Disjointness, the dropped part of the
original claim, fails: see the counterexample `a || !a`.) -/
theorem parseLabelSelector_no_empty :
    (∀ s : String, "" ∉ (ParseLabelSelector s).included ∧
      "" ∉ (ParseLabelSelector s).excluded) ∧
    ParseLabelSelector "" = { included := [], excluded := [] } := by
  refine ⟨fun s => ?_, by decide⟩
  unfold ParseLabelSelector
  split_ifs with h
  · simp
  · exact parseSelectorLoop_no_empty _ _ (by simp) (by simp)

/-- Witness for `parseLabelSelector_no_empty` at a concrete selector. -/
theorem parseLabelSelector_no_empty_witness :
    "" ∉ (ParseLabelSelector "x=1 || !y=2").included ∧
      "" ∉ (ParseLabelSelector "x=1 || !y=2").excluded :=
  parseLabelSelector_no_empty.1 "x=1 || !y=2"

/-- C6 (amended): an application reference is materialized as a git
reference exactly when it is not a binary artifact (`.jar`/`.war`/`.ear`
extension) and begins with `http://`, `https://`, or the literal prefix
`git@`; an ssh-style reference with any other user, such as
`deploy@example.com:repo.git`, is treated as a plain local path. -/
theorem git_classification_iff (app : String) :
    (∃ u r s, prepareInputDecision app = .gitClone u r s) ↔
      (IsBinaryFile app = false ∧
        (hasPrefixStr app "http://" || hasPrefixStr app "https://" ||
          hasPrefixStr app "git@") = true) := by
  cases hb : IsBinaryFile app with
  | true => simp [prepareInputDecision, hb]
  | false =>
    cases h1 : hasPrefixStr app "http://" <;>
      cases h2 : hasPrefixStr app "https://" <;>
        cases h3 : hasPrefixStr app "git@" <;>
          simp [prepareInputDecision, hb, h1, h2, h3] <;>
            split <;> simp

/-- Witness for `git_classification_iff`: the `git@` ssh form is cloned. -/
theorem git_classification_iff_witness :
    ∃ u r s, prepareInputDecision "git@github.com:konveyor/tackle-testapp.git" =
      .gitClone u r s :=
  (git_classification_iff "git@github.com:konveyor/tackle-testapp.git").mpr
    ⟨by decide, by decide⟩

/-- `splitN2Char` on a list free of the separator returns the whole list
and no remainder. -/
theorem splitN2Char_of_not_mem (c : Char) (l : List Char)
    (h : l.any (fun x => x = c) = false) : splitN2Char c l = (l, none) := by
  induction l with
  | nil => rfl
  | cons x xs ih =>
    simp only [List.any_cons, Bool.or_eq_false_iff, decide_eq_false_iff_not] at h
    unfold splitN2Char
    rw [if_neg h.1, ih h.2]

/-- `splitN2Char` splits at the first separator occurrence. -/
theorem splitN2Char_append (c : Char) (a b : List Char)
    (h : a.any (fun x => x = c) = false) :
    splitN2Char c (a ++ c :: b) = (a, some b) := by
  induction a with
  | nil => simp [splitN2Char]
  | cons x xs ih =>
    simp only [List.any_cons, Bool.or_eq_false_iff, decide_eq_false_iff_not] at h
    simp only [List.cons_append]
    unfold splitN2Char
    rw [if_neg h.1, ih h.2]

/-- C10: git-reference parsing splits on the first `#` into URL and
remainder and the remainder on the first `/` into ref and subpath:
the two spec examples evaluate as claimed, a reference without `#` yields
empty ref and subpath, and appending `#ref/subpath` to a hash-free URL
recovers the three components (for a slash- and hash-free ref and an
arbitrary subpath). -/
theorem parseGitReference_first_hash_slash :
    parseGitReference "https://h/r.git#main/sub/dir" =
      ("https://h/r.git", "main", "sub/dir") ∧
    parseGitReference "https://h/r.git" = ("https://h/r.git", "", "") ∧
    (∀ s : String, containsChar s '#' = false → parseGitReference s = (s, "", "")) ∧
    (∀ url ref sub : String, containsChar url '#' = false →
      containsChar ref '#' = false → containsChar ref '/' = false →
      parseGitReference (url ++ "#" ++ (ref ++ "/" ++ sub)) = (url, ref, sub)) := by
  refine ⟨by decide, by decide, fun s hs => ?_, fun url ref sub h1 h2 h3 => ?_⟩
  · unfold parseGitReference
    rw [hs]
    simp
  · have hdata : (url ++ "#" ++ (ref ++ "/" ++ sub)).data =
        url.data ++ '#' :: (ref.data ++ '/' :: sub.data) := by
      show url.data ++ "#".data ++ (ref.data ++ "/".data ++ sub.data) = _
      simp
    have hcontains : containsChar (url ++ "#" ++ (ref ++ "/" ++ sub)) '#' = true := by
      unfold containsChar
      rw [hdata]
      simp
    unfold parseGitReference
    rw [hcontains]
    simp only [if_true]
    rw [hdata, splitN2Char_append '#' url.data _ h1]
    have hsplit2 := splitN2Char_append '/' ref.data sub.data h3
    simp only [hsplit2]

/-- Witness for `parseGitReference_first_hash_slash` at concrete inputs. -/
theorem parseGitReference_first_hash_slash_witness :
    parseGitReference "http://x" = ("http://x", "", "") ∧
    parseGitReference ("u" ++ "#" ++ ("m" ++ "/" ++ "p")) = ("u", "m", "p") :=
  ⟨parseGitReference_first_hash_slash.2.2.1 "http://x" (by decide),
   parseGitReference_first_hash_slash.2.2.2 "u" "m" "p" (by decide) (by decide) (by decide)⟩

/-- A list is a contiguous segment of itself appended on the left. -/
theorem seg_last {α : Type} (l x : List α) : List.IsInfix x (l ++ x) :=
  ⟨l, [], by simp⟩

/-- Contiguous segments survive appending on the right. -/
theorem seg_grow {α : Type} {x m : List α} (r : List α) (h : List.IsInfix x m) :
    List.IsInfix x (m ++ r) := by
  obtain ⟨s, t, hst⟩ := h
  exact ⟨s, t ++ r, by rw [← hst]; simp⟩

/-- Non-membership distributes over append. -/
theorem notMemAppend {α : Type} {x : α} {l r : List α} (hl : x ∉ l) (hr : x ∉ r) :
    x ∉ l ++ r :=
  fun h => (List.mem_append.mp h).elim hl hr

/-- C9: the argument builder is a total (hence deterministic, side-effect
free) function of its four inputs, and:
for `AnalysisMode = source-only` the produced list contains the adjacent
pair `--mode source-only`; for a non-empty settings value it contains the
adjacent pair `--maven-settings <value>`; and for an empty settings value
`--maven-settings` does not occur, provided no other supplied value is the
literal string `--maven-settings`. -/
theorem buildArgs_mode_maven (a : AnalysisConfig) (inputPath outputDir mavenSettings : String) :
    (a.analysisMode = sourceOnlyAnalysisMode →
      List.IsInfix ["--mode", "source-only"] (buildArgs a inputPath outputDir mavenSettings)) ∧
    (mavenSettings ≠ "" →
      List.IsInfix ["--maven-settings", mavenSettings]
        (buildArgs a inputPath outputDir mavenSettings)) ∧
    (mavenSettings = "" → inputPath ≠ "--maven-settings" → outputDir ≠ "--maven-settings" →
      a.labelSelector ≠ "--maven-settings" → a.incidentSelector ≠ "--maven-settings" →
      "--maven-settings" ∉ a.target → "--maven-settings" ∉ a.source →
      "--maven-settings" ∉ a.rules → Int.repr a.contextLines ≠ "--maven-settings" →
      "--maven-settings" ∉ buildArgs a inputPath outputDir mavenSettings) := by
  have hBA : buildArgs a inputPath outputDir mavenSettings =
      ["analyze", "--context-lines", Int.repr a.contextLines] ++
      ["--input", inputPath] ++
      ["--output", outputDir] ++
      (if a.labelSelector ≠ "" then ["--label-selector", a.labelSelector] else []) ++
      (if a.incidentSelector ≠ "" then ["--incident-selector", a.incidentSelector] else []) ++
      (if mavenSettings ≠ "" then ["--maven-settings", mavenSettings] else []) ++
      (if a.target.length > 0 then (a.target.map (fun t => ["-t", t])).flatten else []) ++
      (if a.source.length > 0 then (a.source.map (fun s => ["-s", s])).flatten else []) ++
      (if a.rules.length > 0 then (a.rules.map (fun r => ["--rules", r])).flatten else []) ++
      (if a.analysisMode = sourceOnlyAnalysisMode then ["--mode", "source-only"]
       else if a.analysisMode = fullAnalysisMode then ["--mode", "full"] else []) ++
      ["--run-local=false"] ++ ["--overwrite"] := rfl
  refine ⟨fun hmode => ?_, fun hm => ?_, fun hm0 hi ho hl hc ht hs hr hn => ?_⟩
  · rw [hBA, hmode, if_pos rfl]
    exact seg_grow _ (seg_grow _ (seg_last _ _))
  · rw [hBA, if_pos hm]
    exact seg_grow _ (seg_grow _ (seg_grow _ (seg_grow _ (seg_grow _ (seg_grow _
      (seg_last _ _))))))
  · subst hm0
    rw [hBA]
    have hB1 : "--maven-settings" ∉ ["analyze", "--context-lines", Int.repr a.contextLines] := by
      simp only [List.mem_cons, List.not_mem_nil, or_false]
      push_neg
      exact ⟨by decide, by decide, fun h => hn h.symm⟩
    have hB2 : "--maven-settings" ∉ ["--input", inputPath] := by
      simp only [List.mem_cons, List.not_mem_nil, or_false]
      push_neg
      exact ⟨by decide, fun h => hi h.symm⟩
    have hB3 : "--maven-settings" ∉ ["--output", outputDir] := by
      simp only [List.mem_cons, List.not_mem_nil, or_false]
      push_neg
      exact ⟨by decide, fun h => ho h.symm⟩
    have hB4 : "--maven-settings" ∉
        (if a.labelSelector ≠ "" then ["--label-selector", a.labelSelector] else []) := by
      split
      · simp only [List.mem_cons, List.not_mem_nil, or_false]
        push_neg
        exact ⟨by decide, fun h => hl h.symm⟩
      · simp
    have hB5 : "--maven-settings" ∉
        (if a.incidentSelector ≠ "" then ["--incident-selector", a.incidentSelector] else []) := by
      split
      · simp only [List.mem_cons, List.not_mem_nil, or_false]
        push_neg
        exact ⟨by decide, fun h => hc h.symm⟩
      · simp
    have hB6 : "--maven-settings" ∉
        (if ("" : String) ≠ "" then ["--maven-settings", ("" : String)] else []) := by
      simp
    have hB7 : "--maven-settings" ∉
        (if a.target.length > 0 then (a.target.map (fun t => ["-t", t])).flatten else []) := by
      split
      · intro hmem
        rw [List.mem_flatten] at hmem
        obtain ⟨l, hlmem, hml⟩ := hmem
        rw [List.mem_map] at hlmem
        obtain ⟨t0, ht0, rfl⟩ := hlmem
        simp only [List.mem_cons, List.not_mem_nil, or_false] at hml
        rcases hml with h | h
        · exact absurd h (by decide)
        · exact ht (h ▸ ht0)
      · simp
    have hB8 : "--maven-settings" ∉
        (if a.source.length > 0 then (a.source.map (fun s => ["-s", s])).flatten else []) := by
      split
      · intro hmem
        rw [List.mem_flatten] at hmem
        obtain ⟨l, hlmem, hml⟩ := hmem
        rw [List.mem_map] at hlmem
        obtain ⟨s0, hs0, rfl⟩ := hlmem
        simp only [List.mem_cons, List.not_mem_nil, or_false] at hml
        rcases hml with h | h
        · exact absurd h (by decide)
        · exact hs (h ▸ hs0)
      · simp
    have hB9 : "--maven-settings" ∉
        (if a.rules.length > 0 then (a.rules.map (fun r => ["--rules", r])).flatten else []) := by
      split
      · intro hmem
        rw [List.mem_flatten] at hmem
        obtain ⟨l, hlmem, hml⟩ := hmem
        rw [List.mem_map] at hlmem
        obtain ⟨r0, hr0, rfl⟩ := hlmem
        simp only [List.mem_cons, List.not_mem_nil, or_false] at hml
        rcases hml with h | h
        · exact absurd h (by decide)
        · exact hr (h ▸ hr0)
      · simp
    have hB10 : "--maven-settings" ∉
        (if a.analysisMode = sourceOnlyAnalysisMode then ["--mode", "source-only"]
         else if a.analysisMode = fullAnalysisMode then ["--mode", "full"] else []) := by
      split
      · decide
      · split
        · decide
        · simp
    have hB11 : "--maven-settings" ∉ ["--run-local=false"] := by decide
    have hB12 : "--maven-settings" ∉ ["--overwrite"] := by decide
    exact notMemAppend (notMemAppend (notMemAppend (notMemAppend (notMemAppend
      (notMemAppend (notMemAppend (notMemAppend (notMemAppend (notMemAppend
        (notMemAppend hB1 hB2) hB3) hB4) hB5) hB6) hB7) hB8) hB9) hB10) hB11) hB12

/-- Witness for `buildArgs_mode_maven` at the spec's test configuration. -/
theorem buildArgs_mode_maven_witness :
    List.IsInfix ["--mode", "source-only"]
      (buildArgs ⟨"source-only", 10, "", "", [], [], []⟩ "/in" "/out" "/m2/settings.xml") ∧
    List.IsInfix ["--maven-settings", "/m2/settings.xml"]
      (buildArgs ⟨"source-only", 10, "", "", [], [], []⟩ "/in" "/out" "/m2/settings.xml") ∧
    "--maven-settings" ∉ buildArgs ⟨"source-only", 10, "", "", [], [], []⟩ "/in" "/out" "" :=
  ⟨(buildArgs_mode_maven _ "/in" "/out" "/m2/settings.xml").1 (by decide),
   (buildArgs_mode_maven _ "/in" "/out" "/m2/settings.xml").2.1 (by decide),
   (buildArgs_mode_maven _ "/in" "/out" "").2.2 rfl (by decide) (by decide) (by decide)
     (by decide) (by decide) (by decide) (by decide) (by decide)⟩

end Koncur.Targets

namespace Koncur.Validator

/-- `List.any` is invariant under permutation. -/
theorem permAny {α : Type} {l l' : List α} (p : l.Perm l') (f : α → Bool) :
    l.any f = l'.any f := by
  induction p with
  | nil => rfl
  | cons x _ ih => simp [List.any_cons, ih]
  | swap x y l => simp [List.any_cons, Bool.or_left_comm]
  | trans _ _ ih1 ih2 => rw [ih1, ih2]

/-- When `filepath.Rel` fails for the expected incident's path, no actual
incident can panic or match under the kantra loop. -/
theorem kantra_relNone_pointwise (k : Kantra) (i : Incident) (ifn : String)
    (hiu : ¬ i.uri = "") (hif : uriFilename i.uri = some ifn)
    (hrel : pathRel (pathJoin2 k.testDir "source") ifn = none) (ai : Incident) :
    kantraPanics k i ai = false ∧ kantraMatches k i ai = false := by
  constructor
  · simp only [kantraPanics, hif, hrel]
    simp
  · simp only [kantraMatches, hif, hrel]
    split_ifs with h
    · rcases h with h | h
      · exact absurd h hiu
      · rw [h]
        simp [hiu]
    · simp

/-- The kantra incident search computes: panic iff some actual incident
hits a `Filename` panic, otherwise the flag accumulates an existence
match. -/
theorem kantraIncidentSearch_spec (k : Kantra) (i : Incident) (l : List Incident)
    (found : Bool) :
    kantraIncidentSearch k i l found =
      (if l.any (kantraPanics k i) then none
       else some (found || l.any (kantraMatches k i))) := by
  induction l generalizing found with
  | nil => simp [kantraIncidentSearch]
  | cons ai rest ih =>
    by_cases hsnip : trimSpace i.codeSnip = trimSpace ai.codeSnip
    · by_cases hu : i.uri = "" ∨ ai.uri = ""
      · by_cases hne : i.uri = ai.uri
        · rw [kantraIncidentSearch, if_neg (by simp [hsnip]), if_pos hu,
            if_neg (by simp [hne]), ih]
          simp only [List.any_cons]
          have hp : kantraPanics k i ai = false := by
            rcases hu with h | h <;> simp [kantraPanics, h]
          have hm : kantraMatches k i ai = incidentFieldsMatch i ai := by
            unfold kantraMatches
            rw [if_pos hu]
            have h1 : (trimSpace i.codeSnip == trimSpace ai.codeSnip) = true := by
              simp [hsnip]
            have h2 : (i.uri == ai.uri) = true := by simp [hne]
            rw [h1, h2]
            simp
          rw [hp, hm]
          simp [Bool.or_assoc]
        · rw [kantraIncidentSearch, if_neg (by simp [hsnip]), if_pos hu,
            if_pos hne, ih]
          simp only [List.any_cons]
          have hp : kantraPanics k i ai = false := by
            rcases hu with h | h <;> simp [kantraPanics, h]
          have hm : kantraMatches k i ai = false := by
            simp [kantraMatches, if_pos hu, hne]
          rw [hp, hm]
          simp
      · push_neg at hu
        cases hif : uriFilename i.uri with
        | none =>
          rw [kantraIncidentSearch, if_neg (by simp [hsnip]), if_neg (by tauto)]
          simp only [hif]
          have hp : kantraPanics k i ai = true := by
            simp [kantraPanics, hsnip, hu.1, hu.2, hif]
          simp [List.any_cons, hp]
        | some ifn =>
          cases hrel : pathRel (pathJoin2 k.testDir "source") ifn with
          | none =>
            rw [kantraIncidentSearch, if_neg (by simp [hsnip]), if_neg (by tauto)]
            simp only [hif, hrel]
            have hall := kantra_relNone_pointwise k i ifn hu.1 hif hrel
            have hpan : (ai :: rest).any (kantraPanics k i) = false := by
              rw [List.any_eq_false]
              intro x _
              simp [(hall x).1]
            have hmat : (ai :: rest).any (kantraMatches k i) = false := by
              rw [List.any_eq_false]
              intro x _
              simp [(hall x).2]
            rw [hpan, hmat]
            simp
          | some pathToTest =>
            cases haf : uriFilename ai.uri with
            | none =>
              rw [kantraIncidentSearch, if_neg (by simp [hsnip]), if_neg (by tauto)]
              simp only [hif, hrel, haf]
              have hp : kantraPanics k i ai = true := by
                simp [kantraPanics, hsnip, hu.1, hu.2, hif, hrel, haf]
              simp [List.any_cons, hp]
            | some afn =>
              have hp : kantraPanics k i ai = false := by
                simp [kantraPanics, hif, hrel, haf]
              by_cases hcont : containsSubstr afn pathToTest = true
              · rw [kantraIncidentSearch, if_neg (by simp [hsnip]), if_neg (by tauto)]
                simp only [hif, hrel, haf]
                rw [if_pos hcont, ih]
                have hm : kantraMatches k i ai = incidentFieldsMatch i ai := by
                  unfold kantraMatches
                  rw [if_neg (by tauto)]
                  simp only [hif, hrel, haf]
                  have h1 : (trimSpace i.codeSnip == trimSpace ai.codeSnip) = true := by
                    simp [hsnip]
                  rw [h1, hcont]
                  simp
                simp only [List.any_cons]
                rw [hp, hm]
                simp [Bool.or_assoc]
              · rw [kantraIncidentSearch, if_neg (by simp [hsnip]), if_neg (by tauto)]
                simp only [hif, hrel, haf]
                rw [if_neg hcont, ih]
                have hm : kantraMatches k i ai = false := by
                  unfold kantraMatches
                  rw [if_neg (by tauto)]
                  simp only [hif, hrel, haf]
                  rw [Bool.not_eq_true _ |>.mp hcont]
                  simp
                simp only [List.any_cons]
                rw [hp, hm]
                simp
    · rw [kantraIncidentSearch, if_pos (by simp [hsnip]), ih]
      have hp : kantraPanics k i ai = false := by
        simp [kantraPanics, hsnip]
      have hm : kantraMatches k i ai = false := by
        simp [kantraMatches, hsnip]
      simp [List.any_cons, hp, hm]

/-- When `filepath.Rel` fails for the expected incident's path, no actual
incident can panic or match under the tackle2Hub loop. -/
theorem hub_relNone_pointwise (t : Tackle2Hub) (i : Incident) (ifn : String)
    (hif : uriFilename i.uri = some ifn)
    (hrel : pathRel (pathJoin2 t.kantra.testDir "source") ifn = none) (ai : Incident) :
    hubPanics t i ai = false ∧ hubMatches t i ai = false := by
  constructor
  · simp [hubPanics, hif, hrel]
  · simp [hubMatches, hif, hrel]

/-- The tackle2Hub incident search computes: panic iff some `Filename`
panic is reached, otherwise the flag accumulates an existence match. -/
theorem hubIncidentSearch_spec (t : Tackle2Hub) (i : Incident) (l : List Incident)
    (found : Bool) :
    hubIncidentSearch t i l found =
      (if l.any (hubPanics t i) then none
       else some (found || l.any (hubMatches t i))) := by
  induction l generalizing found with
  | nil => simp [hubIncidentSearch]
  | cons ai rest ih =>
    cases hif : uriFilename i.uri with
    | none =>
      rw [hubIncidentSearch]
      simp only [hif]
      have hp : hubPanics t i ai = true := by simp [hubPanics, hif]
      simp [List.any_cons, hp]
    | some ifn =>
      cases hrel : pathRel (pathJoin2 t.kantra.testDir "source") ifn with
      | none =>
        rw [hubIncidentSearch]
        simp only [hif, hrel]
        have hall := hub_relNone_pointwise t i ifn hif hrel
        have hpan : (ai :: rest).any (hubPanics t i) = false := by
          rw [List.any_eq_false]
          intro x _
          simp [(hall x).1]
        have hmat : (ai :: rest).any (hubMatches t i) = false := by
          rw [List.any_eq_false]
          intro x _
          simp [(hall x).2]
        rw [hpan, hmat]
        simp
      | some pathToTest =>
        cases haf : uriFilename ai.uri with
        | none =>
          rw [hubIncidentSearch]
          simp only [hif, hrel, haf]
          have hp : hubPanics t i ai = true := by simp [hubPanics, hif, hrel, haf]
          simp [List.any_cons, hp]
        | some afn =>
          have hp : hubPanics t i ai = false := by simp [hubPanics, hif, hrel, haf]
          by_cases hcont : containsSubstr afn pathToTest = true
          · rw [hubIncidentSearch]
            simp only [hif, hrel, haf]
            rw [if_pos hcont, ih]
            have hm : hubMatches t i ai = incidentFieldsMatch i ai := by
              unfold hubMatches
              simp only [hif, hrel, haf]
              rw [hcont]
              simp
            simp only [List.any_cons]
            rw [hp, hm]
            simp [Bool.or_assoc]
          · rw [hubIncidentSearch]
            simp only [hif, hrel, haf]
            rw [if_neg hcont, ih]
            have hm : hubMatches t i ai = false := by
              unfold hubMatches
              simp only [hif, hrel, haf]
              rw [Bool.not_eq_true _ |>.mp hcont]
              simp
            simp only [List.any_cons]
            rw [hp, hm]
            simp

/-- The kantra missing-incident collection only depends on the actual
incident list up to permutation. -/
theorem kantraMissingLoop_perm (k : Kantra) {a a' : List Incident} (p : a.Perm a')
    (es : List Incident) : kantraMissingLoop k a' es = kantraMissingLoop k a es := by
  induction es with
  | nil => rfl
  | cons i rest ih =>
    rw [kantraMissingLoop, kantraMissingLoop, kantraIncidentSearch_spec,
      kantraIncidentSearch_spec, ← permAny p (kantraPanics k i),
      ← permAny p (kantraMatches k i), ih]

/-- The tackle2Hub missing-incident errors only depend on the actual
incident list up to permutation. -/
theorem hubIncidentsLoop_perm (t : Tackle2Hub) (eV : Violation)
    {a a' : List Incident} (p : a.Perm a') (es : List Incident) :
    hubIncidentsLoop t eV a' es = hubIncidentsLoop t eV a es := by
  induction es with
  | nil => rfl
  | cons i rest ih =>
    rw [hubIncidentsLoop, hubIncidentsLoop, hubIncidentSearch_spec,
      hubIncidentSearch_spec, ← permAny p (hubPanics t i),
      ← permAny p (hubMatches t i), ih]

/-- C8: incident existence matching is order-independent: permuting the
actual violation's incident list changes neither comparer's violation
comparison result (the full error list, hence the pass/fail verdict). -/
theorem incident_match_order_independent (td : String) (e act : Violation)
    (inc' : List Incident) (p : act.incidents.Perm inc') :
    Kantra.compareViolation { testDir := td } e { act with incidents := inc' } =
      Kantra.compareViolation { testDir := td } e act ∧
    Tackle2Hub.compareViolation { kantra := { testDir := td } } e
        { act with incidents := inc' } =
      Tackle2Hub.compareViolation { kantra := { testDir := td } } e act := by
  obtain ⟨de, ca, la, inc, li, ef⟩ := act
  dsimp only at p
  constructor
  · simp only [Kantra.compareViolation, violationBaseErrors]
    dsimp only
    rw [kantraMissingLoop_perm _ p]
    simp only [p.length_eq]
  · simp only [Tackle2Hub.compareViolation, violationBaseErrors]
    dsimp only
    rw [hubIncidentsLoop_perm _ _ p]

/-- Witness for `incident_match_order_independent`: swapping two concrete
incidents. -/
theorem incident_match_order_independent_witness :
    Kantra.compareViolation { testDir := "/test" } zeroViolation
        { { zeroViolation with
              incidents := [snipIncidentA, { snipIncidentA with codeSnip := "snipB" }] } with
          incidents := [{ snipIncidentA with codeSnip := "snipB" }, snipIncidentA] } =
      Kantra.compareViolation { testDir := "/test" } zeroViolation
        { zeroViolation with
          incidents := [snipIncidentA, { snipIncidentA with codeSnip := "snipB" }] } ∧
    Tackle2Hub.compareViolation { kantra := { testDir := "/test" } } zeroViolation
        { { zeroViolation with
              incidents := [snipIncidentA, { snipIncidentA with codeSnip := "snipB" }] } with
          incidents := [{ snipIncidentA with codeSnip := "snipB" }, snipIncidentA] } =
      Tackle2Hub.compareViolation { kantra := { testDir := "/test" } } zeroViolation
        { zeroViolation with
          incidents := [snipIncidentA, { snipIncidentA with codeSnip := "snipB" }] } :=
  incident_match_order_independent "/test" zeroViolation
    { zeroViolation with
      incidents := [snipIncidentA, { snipIncidentA with codeSnip := "snipB" }] }
    [{ snipIncidentA with codeSnip := "snipB" }, snipIncidentA]
    (List.Perm.swap { snipIncidentA with codeSnip := "snipB" } snipIncidentA [])

end Koncur.Validator
